import Mathlib

/-!
Verification development for the Azure AI Search + LangChain sample notebook
(src/demo-python/code/community-integration/langchain/
azure-search-vector-python-langchain-sample.ipynb).

The notebook is orchestration glue: it reads configuration from the process
environment, splits PDFs into text chunks, sends each chunk to a remote
embedding endpoint, writes {text, vector, source} records to a remote search
index, and issues three kinds of queries. The external libraries it calls
(RecursiveCharacterTextSplitter, AzureSearch, AzureOpenAIEmbeddings) are not
part of this repository, so those operations are modelled from the
specification's description of them; definitions modelled that way carry a
doc comment beginning with "Modelled from the spec:". Everything else (the
environment reads, the key-vs-identity fallback, the ingestion loop, the
query cells) is translated directly from the notebook cells.
-/

namespace LangchainSample

/-! ## Text splitter

Modelled from the spec: the repository delegates chunking to the external
RecursiveCharacterTextSplitter; the spec describes the stage as splitting
text "into overlapping fixed-size windows (window length and overlap are
configuration constants)".  We model that sliding-window splitter directly:
emit the first `W` characters, advance by `W - O`, repeat until at most `W`
characters remain.  The recursion is driven by a fuel argument bounded by
the text length (each step consumes at least one character when `O < W`),
which keeps the definition structurally recursive and executable. -/

/-- One step of the sliding-window splitter, with fuel.  When the remaining
text fits in one window it is emitted as the final chunk; otherwise the
first `W` characters form a chunk and the window advances by `W - O`. -/
def splitGo (W O : Nat) : Nat → List Char → List (List Char)
  | 0, _ => []
  | n + 1, t =>
    if t.isEmpty then []
    else if t.length ≤ W then [t]
    else t.take W :: splitGo W O n (t.drop (W - O))

/-- Modelled from the spec: sliding-window text splitter with window `W`
and overlap `O`.  The fuel `t.length` is sufficient whenever `O < W`. -/
def splitText (W O : Nat) (t : List Char) : List (List Char) :=
  splitGo W O t.length t

/-- Ceiling division on naturals: `ceilDiv a b = ⌈a / b⌉` for `b > 0`. -/
def ceilDiv (a b : Nat) : Nat := (a + b - 1) / b

/-- The "non-overlapping portions" reconstruction: the first chunk in full,
then every later chunk with its leading `O` overlap characters removed. -/
def reconstruct (O : Nat) : List (List Char) → List Char
  | [] => []
  | c :: rest => c ++ (rest.map (fun d => d.drop O)).flatten

/-- The relation between a chunk and its successor: the chunk is a full
window, its trailing `O` characters coincide with the successor's leading
`O` characters, and the successor is long enough that this shared run has
length exactly `O`. -/
def overlapRel (W O : Nat) (c c' : List Char) : Prop :=
  c.length = W ∧ c.drop (W - O) = c'.take O ∧ O < c'.length

/-! ### Splitter lemmas -/

theorem splitGo_of_le (W O n : Nat) (t : List Char) (ht : ¬ t.isEmpty)
    (hle : t.length ≤ W) (hn : 1 ≤ n) : splitGo W O n t = [t] := by
  cases n with
  | zero => omega
  | succ m => simp [splitGo, ht, hle]

theorem splitGo_of_gt (W O n : Nat) (t : List Char) (hgt : W < t.length)
    (hn : 1 ≤ n) :
    splitGo W O n t = t.take W :: splitGo W O (n - 1) (t.drop (W - O)) := by
  cases n with
  | zero => omega
  | succ m =>
    have ht : ¬ t.isEmpty := by
      cases t with
      | nil => simp at hgt
      | cons a l => simp
    simp [splitGo, ht, Nat.not_le.mpr hgt]

/-- With overlap strictly below the window, the fuel `t.length` never runs
out: extra fuel does not change the result. -/
theorem splitGo_fuel (W O : Nat) (hWO : O < W) :
    ∀ n m t, (t : List Char).length ≤ n → t.length ≤ m →
      splitGo W O n t = splitGo W O m t := by
  intro n
  induction n using Nat.strong_induction_on with
  | _ n ih =>
    intro m t hn hm
    by_cases hemp : t.isEmpty
    · have : t = [] := by simpa [List.isEmpty_iff] using hemp
      subst this
      cases n <;> cases m <;> simp [splitGo]
    · have hpos : 0 < t.length := by
        cases t with
        | nil => simp at hemp
        | cons a l => simp
      by_cases hle : t.length ≤ W
      · rw [splitGo_of_le W O n t hemp hle (by omega),
          splitGo_of_le W O m t hemp hle (by omega)]
      · have hgt : W < t.length := Nat.not_le.mp hle
        rw [splitGo_of_gt W O n t hgt (by omega),
          splitGo_of_gt W O m t hgt (by omega)]
        have hdrop : (t.drop (W - O)).length = t.length - (W - O) := by
          simp
        have h1 : (t.drop (W - O)).length ≤ n - 1 := by omega
        have h2 : (t.drop (W - O)).length ≤ m - 1 := by omega
        rw [ih (n - 1) (by omega) (m - 1) _ h1 h2]

theorem splitText_of_le (W O : Nat) (t : List Char) (ht : t ≠ [])
    (hle : t.length ≤ W) : splitText W O t = [t] := by
  have hemp : ¬ t.isEmpty := by simpa [List.isEmpty_iff] using ht
  have hpos : 0 < t.length := List.length_pos.mpr ht
  exact splitGo_of_le W O t.length t hemp hle hpos

theorem splitText_nil (W O : Nat) : splitText W O [] = [] := by
  simp [splitText, splitGo]

theorem splitText_of_gt (W O : Nat) (hWO : O < W) (t : List Char)
    (hgt : W < t.length) :
    splitText W O t = t.take W :: splitText W O (t.drop (W - O)) := by
  have hpos : 1 ≤ t.length := by omega
  rw [splitText, splitGo_of_gt W O t.length t hgt hpos]
  congr 1
  exact splitGo_fuel W O hWO (t.length - 1) (t.drop (W - O)).length
    (t.drop (W - O)) (by simp; omega) (le_refl _)

theorem splitText_chunk_le (W O : Nat) (hWO : O < W) :
    ∀ t : List Char, ∀ c ∈ splitText W O t, c.length ≤ W := by
  have main : ∀ n (t : List Char), t.length ≤ n →
      ∀ c ∈ splitText W O t, c.length ≤ W := by
    intro n
    induction n using Nat.strong_induction_on with
    | _ n ih =>
      intro t hn c hc
      rcases List.eq_nil_or_concat t with hnil | _
      · subst hnil
        rw [splitText_nil] at hc
        simp at hc
      · have ht : t ≠ [] := by
          rcases t with _ | _
          · simp_all
          · simp
        by_cases hle : t.length ≤ W
        · rw [splitText_of_le W O t ht hle] at hc
          simp at hc
          subst hc
          exact hle
        · have hgt : W < t.length := Nat.not_le.mp hle
          rw [splitText_of_gt W O hWO t hgt] at hc
          rcases List.mem_cons.mp hc with hc | hc
          · subst hc
            simp
          · have hdlen : (t.drop (W - O)).length = t.length - (W - O) := by
              simp
            exact ih (n - 1) (by omega) (t.drop (W - O)) (by omega) c hc
  intro t
  exact main t.length t (le_refl _)

theorem splitText_length (W O : Nat) (hWO : O < W) :
    ∀ t : List Char, O < t.length →
      (splitText W O t).length = ceilDiv (t.length - O) (W - O) := by
  have main : ∀ n (t : List Char), t.length ≤ n → O < t.length →
      (splitText W O t).length = ceilDiv (t.length - O) (W - O) := by
    intro n
    induction n using Nat.strong_induction_on with
    | _ n ih =>
      intro t hn hL
      have ht : t ≠ [] := by
        intro h
        subst h
        simp at hL
      by_cases hle : t.length ≤ W
      · rw [splitText_of_le W O t ht hle]
        have h1 : (1 : Nat) * (W - O) ≤ t.length - O + (W - O) - 1 := by omega
        have h2 : t.length - O + (W - O) - 1 < (1 + 1) * (W - O) := by omega
        simp only [List.length_singleton, ceilDiv]
        exact (Nat.div_eq_of_lt_le h1 h2).symm
      · have hgt : W < t.length := Nat.not_le.mp hle
        rw [splitText_of_gt W O hWO t hgt]
        have hdlen : (t.drop (W - O)).length = t.length - (W - O) := by simp
        have hIH := ih (n - 1) (by omega) (t.drop (W - O)) (by omega) (by omega)
        rw [List.length_cons, hIH, hdlen, ceilDiv, ceilDiv]
        have harg : t.length - O + (W - O) - 1
            = (t.length - (W - O) - O + (W - O) - 1) + (W - O) := by omega
        rw [harg, Nat.add_div_right _ (by omega)]
  intro t
  exact main t.length t (le_refl _)

theorem splitText_head (W O : Nat) (t : List Char) (ht : t ≠ []) :
    (splitText W O t).head? = some (t.take W) := by
  have hemp : ¬ t.isEmpty := by simpa [List.isEmpty_iff] using ht
  have hpos : 0 < t.length := List.length_pos.mpr ht
  by_cases hle : t.length ≤ W
  · rw [splitText_of_le W O t ht hle, List.head?_cons,
      List.take_of_length_le hle]
  · rw [splitText, splitGo_of_gt W O t.length t (Nat.not_le.mp hle) hpos,
      List.head?_cons]

theorem splitText_chain (W O : Nat) (hWO : O < W) :
    ∀ t : List Char, O < t.length →
      List.Chain' (overlapRel W O) (splitText W O t) := by
  have main : ∀ n (t : List Char), t.length ≤ n → O < t.length →
      List.Chain' (overlapRel W O) (splitText W O t) := by
    intro n
    induction n using Nat.strong_induction_on with
    | _ n ih =>
      intro t hn hL
      have ht : t ≠ [] := by
        intro h
        subst h
        simp at hL
      by_cases hle : t.length ≤ W
      · rw [splitText_of_le W O t ht hle]
        exact List.chain'_singleton t
      · have hgt : W < t.length := Nat.not_le.mp hle
        rw [splitText_of_gt W O hWO t hgt]
        have hdlen : (t.drop (W - O)).length = t.length - (W - O) := by simp
        have hdpos : O < (t.drop (W - O)).length := by omega
        have hdne : t.drop (W - O) ≠ [] := by
          intro h
          rw [h] at hdpos
          simp at hdpos
        refine List.chain'_cons'.mpr ⟨?_, ih (n - 1) (by omega)
          (t.drop (W - O)) (by omega) hdpos⟩
        intro b hb
        rw [splitText_head W O (t.drop (W - O)) hdne] at hb
        simp only [Option.mem_def, Option.some.injEq] at hb
        subst hb
        refine ⟨?_, ?_, ?_⟩
        · simp
          omega
        · rw [List.drop_take, List.take_take]
          congr 1
          omega
        · simp
          omega
  intro t
  exact main t.length t (le_refl _)

theorem splitText_flatten_drop (W O : Nat) (hWO : O < W) :
    ∀ t : List Char,
      ((splitText W O t).map (fun c => c.drop O)).flatten = t.drop O := by
  have main : ∀ n (t : List Char), t.length ≤ n →
      ((splitText W O t).map (fun c => c.drop O)).flatten = t.drop O := by
    intro n
    induction n using Nat.strong_induction_on with
    | _ n ih =>
      intro t hn
      rcases List.eq_nil_or_concat t with hnil | _
      · subst hnil
        rw [splitText_nil]
        simp
      · have ht : t ≠ [] := by
          rcases t with _ | _
          · simp_all
          · simp
        by_cases hle : t.length ≤ W
        · rw [splitText_of_le W O t ht hle]
          simp
        · have hgt : W < t.length := Nat.not_le.mp hle
          rw [splitText_of_gt W O hWO t hgt]
          have hdlen : (t.drop (W - O)).length = t.length - (W - O) := by simp
          rw [List.map_cons, List.flatten_cons,
            ih (n - 1) (by omega) (t.drop (W - O)) (by omega),
            List.drop_drop, List.drop_take]
          have hOW : W - O + O = W := by omega
          rw [hOW]
          have : t.drop W = (t.drop O).drop (W - O) := by
            rw [List.drop_drop]
            congr 1
            omega
          rw [this, List.take_append_drop]
  intro t
  exact main t.length t (le_refl _)

theorem reconstruct_splitText (W O : Nat) (hWO : O < W) (t : List Char) :
    reconstruct O (splitText W O t) = t := by
  rcases List.eq_nil_or_concat t with hnil | _
  · subst hnil
    rw [splitText_nil]
    rfl
  · have ht : t ≠ [] := by
      rcases t with _ | _
      · simp_all
      · simp
    by_cases hle : t.length ≤ W
    · rw [splitText_of_le W O t ht hle]
      simp [reconstruct]
    · have hgt : W < t.length := Nat.not_le.mp hle
      rw [splitText_of_gt W O hWO t hgt]
      simp only [reconstruct]
      rw [splitText_flatten_drop W O hWO (t.drop (W - O)), List.drop_drop]
      have hOW : W - O + O = W := by omega
      rw [hOW, List.take_append_drop]

/-! ## Configuration loader

Translated from the notebook cell that reads `os.environ`:

  endpoint = os.environ["AZURE_SEARCH_SERVICE_ENDPOINT"]
  key_credential = os.environ["AZURE_SEARCH_ADMIN_KEY"]
      if len(os.environ["AZURE_SEARCH_ADMIN_KEY"]) > 0 else None
  index_name = os.environ["AZURE_SEARCH_INDEX"]
  azure_openai_endpoint = os.environ["AZURE_OPENAI_ENDPOINT"]
  azure_openai_key = os.environ["AZURE_OPENAI_KEY"]
      if len(os.environ["AZURE_OPENAI_KEY"]) > 0 else None
  azure_openai_embedding_deployment =
      os.environ["AZURE_OPENAI_EMBEDDING_DEPLOYMENT"]
  azure_openai_api_version = os.environ["AZURE_OPENAI_API_VERSION"]

`os.environ[name]` raises `KeyError` when `name` is unset; an environment
value that is set (even to the empty string) is returned as-is. -/

/-- A process environment: an association list from variable names to
string values. -/
abbrev Env := List (String × String)

/-- `os.environ.get(name)`: the value of `name` when set. -/
def lookupEnv (env : Env) (name : String) : Option String :=
  env.lookup name

/-- `os.environ[name]`: the value when set, a `KeyError` otherwise. -/
def getRequired (env : Env) (name : String) : Except String String :=
  match lookupEnv env name with
  | none => .error ("KeyError: " ++ name)
  | some v => .ok v

/-- The configuration the notebook extracts from the environment.  The two
key variables are stored as `Option`: `none` models Python `None`, the
result of the `if len(...) > 0 else None` normalisation of an empty
string. -/
structure Config where
  endpoint : String
  adminKey : Option String
  indexName : String
  openaiEndpoint : String
  openaiKey : Option String
  embeddingDeployment : String
  apiVersion : String
deriving Repr, DecidableEq

/-- The configuration-reading cell, reading the seven variables in the
order the notebook does.  A `KeyError` on any of them aborts the cell. -/
def loadConfig (env : Env) : Except String Config := do
  let endpoint ← getRequired env "AZURE_SEARCH_SERVICE_ENDPOINT"
  let adminKeyRaw ← getRequired env "AZURE_SEARCH_ADMIN_KEY"
  let indexName ← getRequired env "AZURE_SEARCH_INDEX"
  let openaiEndpoint ← getRequired env "AZURE_OPENAI_ENDPOINT"
  let openaiKeyRaw ← getRequired env "AZURE_OPENAI_KEY"
  let embeddingDeployment ← getRequired env "AZURE_OPENAI_EMBEDDING_DEPLOYMENT"
  let apiVersion ← getRequired env "AZURE_OPENAI_API_VERSION"
  .ok { endpoint := endpoint
        adminKey := if adminKeyRaw.length > 0 then some adminKeyRaw else none
        indexName := indexName
        openaiEndpoint := openaiEndpoint
        openaiKey := if openaiKeyRaw.length > 0 then some openaiKeyRaw else none
        embeddingDeployment := embeddingDeployment
        apiVersion := apiVersion }

/-- The five configuration variables the repository treats as plain
required values (read directly with `os.environ[...]` and used as-is). -/
def requiredVarNames : List String :=
  ["AZURE_SEARCH_SERVICE_ENDPOINT", "AZURE_SEARCH_INDEX",
   "AZURE_OPENAI_ENDPOINT", "AZURE_OPENAI_EMBEDDING_DEPLOYMENT",
   "AZURE_OPENAI_API_VERSION"]

/-- An authentication credential: either an explicit API key or the
ambient identity credential (`DefaultAzureCredential`). -/
inductive Credential where
  | key (k : String)
  | ambient
deriving Repr, DecidableEq

/-- `credential = key_credential or DefaultAzureCredential()`. -/
def credentialOf (cfg : Config) : Credential :=
  match cfg.adminKey with
  | some k => .key k
  | none => .ambient

/-- The search client as constructed by the `AzureSearch(...)` cell. -/
structure SearchClient where
  endpoint : String
  indexName : String
  credential : Credential
deriving Repr, DecidableEq

/-- Modelled from the spec: the external `AzureSearch` vector store is
constructed with `azure_search_key=key_credential`; per the spec the
admin key "falls back to an ambient identity credential if empty", i.e.
a `None` key yields the ambient credential. -/
def mkSearchClient (cfg : Config) : SearchClient :=
  { endpoint := cfg.endpoint
    indexName := cfg.indexName
    credential := match cfg.adminKey with
      | some k => .key k
      | none => .ambient }

/-- The embeddings client as constructed by the `AzureOpenAIEmbeddings`
cell.  `adTokenProvider` records whether an Azure AD bearer-token provider
is attached (`azure_ad_token_provider=token_provider if not
azure_openai_key else None`). -/
structure EmbeddingsClient where
  deployment : String
  apiVersion : String
  endpoint : String
  apiKey : Option String
  adTokenProvider : Bool
deriving Repr, DecidableEq

/-- The `AzureOpenAIEmbeddings(...)` construction: the API key is passed
through, and the token provider is attached exactly when the key is
`None` (Python `not None = True`, `not "nonempty" = False`). -/
def mkEmbeddingsClient (cfg : Config) : EmbeddingsClient :=
  { deployment := cfg.embeddingDeployment
    apiVersion := cfg.apiVersion
    endpoint := cfg.openaiEndpoint
    apiKey := cfg.openaiKey
    adTokenProvider := match cfg.openaiKey with
      | none => true
      | some _ => false }

/-! ## Ingestion pipeline

The notebook loop:

  for file in files:
      file_chunks = loader.load_and_split(splitter)
      results = vector_store.add_documents(documents=file_chunks)
      total_chunks += len(results)

`add_documents` lives in the external LangChain `AzureSearch` class;
modelled from the spec: "For each chunk, in sequence: calls the remote
embedding endpoint with the chunk text, receives a vector, bundles
{text, vector, source metadata} into a write request, calls the remote
index-write endpoint"; a failed call raises and aborts the run.  The two
remote endpoints are an oracle (`World`); each call either returns a
value or fails, and the run records the sequence of remote calls it
issues as a trace of `Event`s. -/

/-- A chunk document: its text plus its source-file metadata. -/
structure Doc where
  text : List Char
  source : String
deriving Repr, DecidableEq

/-- The remote collaborators: the embedding endpoint and the index-write
endpoint.  Each call either succeeds with a value or fails with an
error message. -/
structure World where
  embed : List Char → Except String (List Int)
  write : List Char → List Int → String → Except String String

/-- A remote call issued by the run, as recorded in the trace. -/
inductive Event where
  | embedCall (text : List Char)
  | writeCall (text : List Char) (vector : List Int) (source : String)
deriving Repr, DecidableEq

/-- Modelled from the spec: `add_documents`.  Processes the chunks
strictly in sequence; for each chunk the embedding endpoint is called
first, then the index-write endpoint with the returned vector; an error
from either endpoint propagates immediately, ending the run with the
trace accumulated so far.  On success, returns the written ids. -/
def addDocuments (w : World) : List Doc → List Event × Except String (List String)
  | [] => ([], .ok [])
  | d :: ds =>
    match w.embed d.text with
    | .error e => ([.embedCall d.text], .error e)
    | .ok v =>
      match w.write d.text v d.source with
      | .error e => ([.embedCall d.text, .writeCall d.text v d.source], .error e)
      | .ok id =>
        let rest := addDocuments w ds
        (.embedCall d.text :: .writeCall d.text v d.source :: rest.1,
         match rest.2 with
         | .error e => .error e
         | .ok ids => .ok (id :: ids))

/-- The fixed set of PDF files the notebook ingests. -/
def benefitFiles : List String :=
  ["Benefit_Options.pdf", "Northwind_Health_Plus_Benefits_Details.pdf",
   "Northwind_Standard_Benefits_Details.pdf"]

/-- The notebook's splitter configuration:
`RecursiveCharacterTextSplitter(chunk_size=1000, chunk_overlap=0)`
applied to the text extracted from one file, with each chunk tagged with
its source file. -/
def fileChunks (pdfText : String → List Char) (file : String) : List Doc :=
  (splitText 1000 0 (pdfText file)).map (fun c => { text := c, source := file })

/-- The ingestion loop over the fixed file list: split each file, add its
documents, and accumulate `total_chunks += len(results)`.  A failure
aborts the loop, keeping the trace produced so far. -/
def ingestFiles (w : World) (pdfText : String → List Char) :
    List String → List Event × Except String Nat
  | [] => ([], .ok 0)
  | f :: fs =>
    let step := addDocuments w (fileChunks pdfText f)
    match step.2 with
    | .error e => (step.1, .error e)
    | .ok ids =>
      let rest := ingestFiles w pdfText fs
      (step.1 ++ rest.1,
       match rest.2 with
       | .error e => .error e
       | .ok n => .ok (ids.length + n))

/-- The whole run: load configuration, then ingest; a configuration
error aborts before any remote call is issued. -/
def runPipeline (env : Env) (w : World) (pdfText : String → List Char) :
    List Event × Except String Nat :=
  match loadConfig env with
  | .error e => ([], .error e)
  | .ok _ => ingestFiles w pdfText benefitFiles

/-- The remote calls a single chunk gives rise to: its embedding call,
then — when the embedding succeeds — its index-write call. -/
def eventsFor (w : World) (d : Doc) : List Event :=
  match w.embed d.text with
  | .error _ => [.embedCall d.text]
  | .ok v => [.embedCall d.text, .writeCall d.text v d.source]

/-- Both remote calls for this chunk succeed. -/
def docOk (w : World) (d : Doc) : Prop :=
  ∃ v id, w.embed d.text = .ok v ∧ w.write d.text v d.source = .ok id

/-- A remote call for this chunk fails: either its embedding call, or
its index-write call after a successful embedding. -/
def docFails (w : World) (d : Doc) : Prop :=
  (∃ e, w.embed d.text = .error e) ∨
  (∃ v e, w.embed d.text = .ok v ∧ w.write d.text v d.source = .error e)

/-! ## Query client

Modelled from the spec: the three query operations are "differentiated
only by which remote mode flag is set"; each sends the query string and
result-count bound to the remote service and returns the service's
ranked result list unchanged. -/

/-- The remote search mode selector. -/
inductive SearchMode where
  | similarity
  | hybrid
  | semanticHybrid
deriving Repr, DecidableEq

/-- A record returned by the remote search service: matched text, source
metadata, and a relevance score (with caption/answer fields in semantic
mode, carried opaquely here). -/
structure QueryResult where
  pageContent : List Char
  source : String
  score : Int
deriving Repr, DecidableEq

/-- The remote search service: takes a mode, a query string and a
result-count bound, and returns a ranked result list. -/
structure QueryWorld where
  search : SearchMode → String → Nat → List QueryResult

/-- `vector_store.similarity_search(query, k=k, search_type="similarity")`. -/
def similaritySearch (qw : QueryWorld) (query : String) (k : Nat) :
    List QueryResult :=
  qw.search .similarity query k

/-- `vector_store.similarity_search(query, k=k, search_type="hybrid")`. -/
def hybridSearch (qw : QueryWorld) (query : String) (k : Nat) :
    List QueryResult :=
  qw.search .hybrid query k

/-- `vector_store.semantic_hybrid_search_with_score(query, k=k)`. -/
def semanticHybridSearchWithScore (qw : QueryWorld) (query : String) (k : Nat) :
    List QueryResult :=
  qw.search .semanticHybrid query k

/-- The query string used by all three notebook query cells. -/
def nbQuery : String :=
  "What is included in my Northwind Health Plus plan that is not in standard?"

/-- The vector-similarity cell: query with `k=50`, then keep
`docs[:3]` for display. -/
def similarityCell (qw : QueryWorld) : List QueryResult :=
  (similaritySearch qw nbQuery 50).take 3

/-- The hybrid cell: query with `k=50`, then keep `docs[:3]`. -/
def hybridCell (qw : QueryWorld) : List QueryResult :=
  (hybridSearch qw nbQuery 50).take 3

/-- The semantic-hybrid cell: query with `k=50`, then keep
`docs_and_scores[:3]`. -/
def semanticHybridCell (qw : QueryWorld) : List QueryResult :=
  (semanticHybridSearchWithScore qw nbQuery 50).take 3

/-- Modelled from the spec: the remote read interface with its error
path.  `QueryWorld` is the success-path model of the remote service used
by the query operations; like every remote call, a query call may also
fail (network, auth, quota), which this fallible view of the same
interface records. -/
structure FallibleQueryWorld where
  trySearch : SearchMode → String → Nat → Except String (List QueryResult)

/-- A remote query call issued by the run, as recorded in the trace. -/
inductive QueryEvent where
  | searchCall (mode : SearchMode) (query : String) (k : Nat)
deriving Repr, DecidableEq

/-- The notebook's query phase, run linearly over a list of modes: each
cell issues one remote search call with the shared query string and
`k=50`, keeps the first three results on success, and — having no
try/except — lets an error propagate, terminating the run so that no
later cell executes. -/
def runQueries (qw : FallibleQueryWorld) :
    List SearchMode → List QueryEvent × Except String (List (List QueryResult))
  | [] => ([], .ok [])
  | m :: ms =>
    match qw.trySearch m nbQuery 50 with
    | .error e => ([.searchCall m nbQuery 50], .error e)
    | .ok rs =>
      let rest := runQueries qw ms
      (.searchCall m nbQuery 50 :: rest.1,
       match rest.2 with
       | .error e => .error e
       | .ok ls => .ok (rs.take 3 :: ls))

/-- The three query cells in the order the notebook runs them. -/
def queryModes : List SearchMode :=
  [.similarity, .hybrid, .semanticHybrid]

/-! ### Ingestion lemmas -/

theorem addDocuments_ok_flatten (w : World) :
    ∀ ds : List Doc, (∀ d ∈ ds, docOk w d) →
      (addDocuments w ds).1 = (ds.map (eventsFor w)).flatten ∧
      ∃ ids, (addDocuments w ds).2 = .ok ids := by
  intro ds
  induction ds with
  | nil => intro _; exact ⟨rfl, [], rfl⟩
  | cons d ds ih =>
    intro hall
    obtain ⟨v, id, hv, hw⟩ := hall d (List.mem_cons_self d ds)
    obtain ⟨htr, ids, hids⟩ := ih (fun x hx => hall x (List.mem_cons_of_mem d hx))
    refine ⟨?_, id :: ids, ?_⟩
    · simp only [addDocuments, hv, hw, List.map_cons, List.flatten_cons,
        eventsFor, htr]
      rfl
    · simp only [addDocuments, hv, hw, hids]

theorem addDocuments_ok_length (w : World) :
    ∀ (ds : List Doc) (ids : List String),
      (addDocuments w ds).2 = .ok ids → ids.length = ds.length := by
  intro ds
  induction ds with
  | nil =>
    intro ids h
    simp only [addDocuments] at h
    cases h
    rfl
  | cons d ds ih =>
    intro ids h
    cases hv : w.embed d.text with
    | error e =>
      simp only [addDocuments, hv] at h
      exact Except.noConfusion h
    | ok v =>
      cases hw : w.write d.text v d.source with
      | error e =>
        simp only [addDocuments, hv, hw] at h
        exact Except.noConfusion h
      | ok id =>
        cases hrest : (addDocuments w ds).2 with
        | error e =>
          simp only [addDocuments, hv, hw, hrest] at h
          exact Except.noConfusion h
        | ok ids0 =>
          simp only [addDocuments, hv, hw, hrest] at h
          cases h
          simp [ih ids0 hrest]

theorem addDocuments_fail_decomp (w : World) (d : Doc) (post : List Doc) :
    ∀ pre : List Doc, (∀ p ∈ pre, docOk w p) → docFails w d →
      (addDocuments w (pre ++ d :: post)).1
        = (pre.map (eventsFor w)).flatten ++ eventsFor w d ∧
      ∃ e, (addDocuments w (pre ++ d :: post)).2 = .error e := by
  intro pre
  induction pre with
  | nil =>
    intro _ hfail
    rcases hfail with ⟨e, he⟩ | ⟨v, e, hv, he⟩
    · simp [addDocuments, he, eventsFor]
    · simp [addDocuments, hv, he, eventsFor]
  | cons p pre ih =>
    intro hall hfail
    obtain ⟨v, id, hv, hw⟩ := hall p (List.mem_cons_self p pre)
    obtain ⟨htr, e, he⟩ :=
      ih (fun x hx => hall x (List.mem_cons_of_mem p hx)) hfail
    rw [List.cons_append]
    constructor
    · simp only [addDocuments, hv, hw, List.map_cons, List.flatten_cons,
        List.append_assoc, htr]
      simp [eventsFor, hv]
    · refine ⟨e, ?_⟩
      simp only [addDocuments, hv, hw, he]

theorem runQueries_fail_decomp (qw : FallibleQueryWorld) (m : SearchMode)
    (qpost : List SearchMode) (e : String) :
    ∀ qpre : List SearchMode,
      (∀ m' ∈ qpre, ∃ rs, qw.trySearch m' nbQuery 50 = .ok rs) →
      qw.trySearch m nbQuery 50 = .error e →
      (runQueries qw (qpre ++ m :: qpost)).1
        = (qpre ++ [m]).map (fun m' => QueryEvent.searchCall m' nbQuery 50) ∧
      (runQueries qw (qpre ++ m :: qpost)).2 = .error e := by
  intro qpre
  induction qpre with
  | nil =>
    intro _ hfail
    simp [runQueries, hfail]
  | cons q qpre ih =>
    intro hok hfail
    obtain ⟨rs, hq⟩ := hok q (List.mem_cons_self q qpre)
    obtain ⟨htr, hres⟩ :=
      ih (fun x hx => hok x (List.mem_cons_of_mem q hx)) hfail
    rw [List.cons_append]
    constructor
    · simp only [runQueries, hq, htr, List.cons_append, List.map_cons]
    · simp only [runQueries, hq, hres]

theorem ingestFiles_ok_sum (w : World) (pdfText : String → List Char) :
    ∀ (files : List String) (n : Nat),
      (ingestFiles w pdfText files).2 = .ok n →
      n = (files.map (fun f => (fileChunks pdfText f).length)).sum := by
  intro files
  induction files with
  | nil =>
    intro n h
    simp only [ingestFiles] at h
    cases h
    simp
  | cons f fs ih =>
    intro n h
    simp only [ingestFiles] at h
    cases hstep : (addDocuments w (fileChunks pdfText f)).2 with
    | error e => rw [hstep] at h; cases h
    | ok ids =>
      rw [hstep] at h
      cases hrest : (ingestFiles w pdfText fs).2 with
      | error e => simp only [hrest] at h; cases h
      | ok m =>
        simp only [hrest] at h
        cases h
        have hlen := addDocuments_ok_length w (fileChunks pdfText f) ids hstep
        simp [hlen, ih m hrest]

/-! ### Configuration lemmas -/

/-- All seven environment variables the configuration cell reads, in the
order it reads them. -/
def allVarNames : List String :=
  ["AZURE_SEARCH_SERVICE_ENDPOINT", "AZURE_SEARCH_ADMIN_KEY",
   "AZURE_SEARCH_INDEX", "AZURE_OPENAI_ENDPOINT", "AZURE_OPENAI_KEY",
   "AZURE_OPENAI_EMBEDDING_DEPLOYMENT", "AZURE_OPENAI_API_VERSION"]

theorem bindError {α β : Type} (e : String) (f : α → Except String β) :
    (Except.error e : Except String α) >>= f = .error e := rfl

theorem bindOk {α β : Type} (a : α) (f : α → Except String β) :
    (Except.ok a : Except String α) >>= f = f a := rfl

theorem loadConfig_ok_inv (env : Env) (cfg : Config)
    (h : loadConfig env = .ok cfg) :
    ∃ v1 v2 v3 v4 v5 v6 v7,
      lookupEnv env "AZURE_SEARCH_SERVICE_ENDPOINT" = some v1 ∧
      lookupEnv env "AZURE_SEARCH_ADMIN_KEY" = some v2 ∧
      lookupEnv env "AZURE_SEARCH_INDEX" = some v3 ∧
      lookupEnv env "AZURE_OPENAI_ENDPOINT" = some v4 ∧
      lookupEnv env "AZURE_OPENAI_KEY" = some v5 ∧
      lookupEnv env "AZURE_OPENAI_EMBEDDING_DEPLOYMENT" = some v6 ∧
      lookupEnv env "AZURE_OPENAI_API_VERSION" = some v7 ∧
      cfg = { endpoint := v1
              adminKey := if v2.length > 0 then some v2 else none
              indexName := v3
              openaiEndpoint := v4
              openaiKey := if v5.length > 0 then some v5 else none
              embeddingDeployment := v6
              apiVersion := v7 } := by
  cases h1 : lookupEnv env "AZURE_SEARCH_SERVICE_ENDPOINT" with
  | none => simp [loadConfig, getRequired, h1, bindError, bindOk] at h
  | some v1 =>
  cases h2 : lookupEnv env "AZURE_SEARCH_ADMIN_KEY" with
  | none => simp [loadConfig, getRequired, h1, h2, bindError, bindOk] at h
  | some v2 =>
  cases h3 : lookupEnv env "AZURE_SEARCH_INDEX" with
  | none => simp [loadConfig, getRequired, h1, h2, h3, bindError, bindOk] at h
  | some v3 =>
  cases h4 : lookupEnv env "AZURE_OPENAI_ENDPOINT" with
  | none =>
    simp [loadConfig, getRequired, h1, h2, h3, h4, bindError, bindOk] at h
  | some v4 =>
  cases h5 : lookupEnv env "AZURE_OPENAI_KEY" with
  | none =>
    simp [loadConfig, getRequired, h1, h2, h3, h4, h5, bindError, bindOk] at h
  | some v5 =>
  cases h6 : lookupEnv env "AZURE_OPENAI_EMBEDDING_DEPLOYMENT" with
  | none =>
    simp [loadConfig, getRequired, h1, h2, h3, h4, h5, h6, bindError,
      bindOk] at h
  | some v6 =>
  cases h7 : lookupEnv env "AZURE_OPENAI_API_VERSION" with
  | none =>
    simp [loadConfig, getRequired, h1, h2, h3, h4, h5, h6, h7, bindError,
      bindOk] at h
  | some v7 =>
    simp only [loadConfig, getRequired, h1, h2, h3, h4, h5, h6, h7,
      bindOk] at h
    cases h
    exact ⟨v1, v2, v3, v4, v5, v6, v7, rfl, rfl, rfl, rfl, rfl, rfl, rfl, rfl⟩

theorem loadConfig_error_of_absent (env : Env) (name : String)
    (hmem : name ∈ allVarNames) (habs : lookupEnv env name = none) :
    ∃ e, loadConfig env = .error e := by
  cases hres : loadConfig env with
  | error e => exact ⟨e, rfl⟩
  | ok cfg =>
    exfalso
    obtain ⟨v1, v2, v3, v4, v5, v6, v7, h1, h2, h3, h4, h5, h6, h7, _⟩ :=
      loadConfig_ok_inv env cfg hres
    simp only [allVarNames, List.mem_cons, List.not_mem_nil, or_false] at hmem
    rcases hmem with rfl | rfl | rfl | rfl | rfl | rfl | rfl <;>
      simp_all

theorem length_pos_of_ne_empty (s : String) (h : s ≠ "") : 0 < s.length := by
  cases s with
  | mk data =>
    cases data with
    | nil => simp at h
    | cons a l => simp [String.length]

/-! ## Concrete worlds and environments used by witnesses -/

/-- A remote world in which every call succeeds. -/
def wOk : World :=
  { embed := fun _ => .ok [0], write := fun _ _ _ => .ok "id0" }

/-- A remote world whose embedding endpoint fails on the text "b". -/
def wFailB : World :=
  { embed := fun t => if t = ['b'] then .error "boom" else .ok [1]
    write := fun _ _ _ => .ok "id0" }

/-- A PDF-text oracle: every file extracts to the single character "x". -/
def pdfOne : String → List Char := fun _ => ['x']

/-- A remote query service that fails on hybrid searches and returns an
empty result list otherwise. -/
def qwFailHybrid : FallibleQueryWorld :=
  { trySearch := fun m _ _ =>
      if m = .hybrid then .error "qboom" else .ok [] }

/-- An environment with every variable set, but the search endpoint set to
the empty string. -/
def envEmptyEndpoint : Env :=
  [("AZURE_SEARCH_SERVICE_ENDPOINT", ""), ("AZURE_SEARCH_ADMIN_KEY", "admin"),
   ("AZURE_SEARCH_INDEX", "idx"), ("AZURE_OPENAI_ENDPOINT", "oai"),
   ("AZURE_OPENAI_KEY", "okey"), ("AZURE_OPENAI_EMBEDDING_DEPLOYMENT", "dep"),
   ("AZURE_OPENAI_API_VERSION", "v1")]

/-- An environment with every variable set, the two key variables set to
the empty string. -/
def envEmptyKeys : Env :=
  [("AZURE_SEARCH_SERVICE_ENDPOINT", "ep"), ("AZURE_SEARCH_ADMIN_KEY", ""),
   ("AZURE_SEARCH_INDEX", "idx"), ("AZURE_OPENAI_ENDPOINT", "oai"),
   ("AZURE_OPENAI_KEY", ""), ("AZURE_OPENAI_EMBEDDING_DEPLOYMENT", "dep"),
   ("AZURE_OPENAI_API_VERSION", "v1")]

/-- The configuration `envEmptyKeys` loads to. -/
def cfgEmptyKeys : Config :=
  { endpoint := "ep", adminKey := none, indexName := "idx",
    openaiEndpoint := "oai", openaiKey := none,
    embeddingDeployment := "dep", apiVersion := "v1" }

/-- An environment with every variable set to a non-empty value. -/
def envWithKeys : Env :=
  [("AZURE_SEARCH_SERVICE_ENDPOINT", "ep"), ("AZURE_SEARCH_ADMIN_KEY", "admin"),
   ("AZURE_SEARCH_INDEX", "idx"), ("AZURE_OPENAI_ENDPOINT", "oai"),
   ("AZURE_OPENAI_KEY", "okey"), ("AZURE_OPENAI_EMBEDDING_DEPLOYMENT", "dep"),
   ("AZURE_OPENAI_API_VERSION", "v1")]

/-- The configuration `envWithKeys` loads to. -/
def cfgWithKeys : Config :=
  { endpoint := "ep", adminKey := some "admin", indexName := "idx",
    openaiEndpoint := "oai", openaiKey := some "okey",
    embeddingDeployment := "dep", apiVersion := "v1" }

/-- An environment in which the search admin key variable is unset. -/
def envNoAdmin : Env :=
  [("AZURE_SEARCH_SERVICE_ENDPOINT", "ep"), ("AZURE_SEARCH_INDEX", "idx"),
   ("AZURE_OPENAI_ENDPOINT", "oai"), ("AZURE_OPENAI_KEY", "okey"),
   ("AZURE_OPENAI_EMBEDDING_DEPLOYMENT", "dep"),
   ("AZURE_OPENAI_API_VERSION", "v1")]

/-- An environment in which the embedding API key variable is unset. -/
def envNoOpenai : Env :=
  [("AZURE_SEARCH_SERVICE_ENDPOINT", "ep"), ("AZURE_SEARCH_ADMIN_KEY", "admin"),
   ("AZURE_SEARCH_INDEX", "idx"), ("AZURE_OPENAI_ENDPOINT", "oai"),
   ("AZURE_OPENAI_EMBEDDING_DEPLOYMENT", "dep"),
   ("AZURE_OPENAI_API_VERSION", "v1")]

/-! ## Claim theorems -/

/-- C1, counterexample: the chunk-count formula fails as universally
stated.  For the one-character text "a" with window 2 and overlap 1 the
splitter produces one chunk, while ceil((L−O)/(W−O)) = ceil(0/1) = 0. -/
theorem C1_counterexample :
    ¬ ((splitText 2 1 ['a']).length
        = ceilDiv ((['a'] : List Char).length - 1) (2 - 1)) := by
  decide

/-- C1 (amended): for window `W`, overlap `O < W`, and any text longer
than the overlap (`O < L`), the splitter produces exactly
ceil((L−O)/(W−O)) chunks, every chunk has length at most `W`, and each
pair of consecutive chunks overlaps by exactly `O` characters (every
non-final chunk is a full window whose trailing `O` characters are the
following chunk's leading `O` characters).  For `0 < L ≤ O` the splitter
instead produces the whole text as a single chunk. -/
theorem C1_splitter_window_properties (W O : Nat) (t : List Char)
    (hWO : O < W) (hL : O < t.length) :
    (splitText W O t).length = ceilDiv (t.length - O) (W - O) ∧
    (∀ c ∈ splitText W O t, c.length ≤ W) ∧
    List.Chain' (overlapRel W O) (splitText W O t) :=
  ⟨splitText_length W O hWO t hL, splitText_chunk_le W O hWO t,
   splitText_chain W O hWO t hL⟩

/-- C1, witness: the amended theorem at W = 4, O = 2, t = "abcdef". -/
theorem C1_witness :
    (2 < 4 ∧ 2 < (['a', 'b', 'c', 'd', 'e', 'f'] : List Char).length) ∧
    ((splitText 4 2 ['a', 'b', 'c', 'd', 'e', 'f']).length
        = ceilDiv ((['a', 'b', 'c', 'd', 'e', 'f'] : List Char).length - 2)
            (4 - 2) ∧
      (∀ c ∈ splitText 4 2 ['a', 'b', 'c', 'd', 'e', 'f'], c.length ≤ 4) ∧
      List.Chain' (overlapRel 4 2)
        (splitText 4 2 ['a', 'b', 'c', 'd', 'e', 'f'])) :=
  ⟨⟨by decide, by decide⟩,
   C1_splitter_window_properties 4 2 ['a', 'b', 'c', 'd', 'e', 'f']
     (by decide) (by decide)⟩

/-- C2: concatenating the first chunk with every later chunk stripped of
its leading `O` overlap characters reconstructs the input text exactly,
for every text and every configuration with `O < W`. -/
theorem C2_reconstruction (W O : Nat) (t : List Char) (hWO : O < W) :
    reconstruct O (splitText W O t) = t :=
  reconstruct_splitText W O hWO t

/-- C2, witness: reconstruction at W = 4, O = 2, t = "abcdef". -/
theorem C2_witness :
    2 < 4 ∧
    reconstruct 2 (splitText 4 2 ['a', 'b', 'c', 'd', 'e', 'f'])
      = ['a', 'b', 'c', 'd', 'e', 'f'] :=
  ⟨by decide, C2_reconstruction 4 2 ['a', 'b', 'c', 'd', 'e', 'f'] (by decide)⟩

/-- C3, counterexample: the loader does not fail on an empty required
variable.  With every variable set and the search endpoint equal to the
empty string, configuration loading succeeds, and the run goes on to
issue remote calls. -/
theorem C3_counterexample :
    (loadConfig envEmptyEndpoint).isOk = true ∧
    (runPipeline envEmptyEndpoint wOk pdfOne).1 ≠ [] := by
  constructor
  · decide
  · decide

/-- C3 (amended): if a required configuration variable is absent from
the environment, the run fails with a key-not-found error before any
remote call is attempted: the pipeline's trace of remote calls is empty
and its result is an error.  (An empty-string value, by contrast, is
accepted: the loader performs no non-emptiness validation.) -/
theorem C3_absent_var_aborts (env : Env) (w : World)
    (pdf : String → List Char) (name : String)
    (hmem : name ∈ requiredVarNames) (habs : lookupEnv env name = none) :
    (runPipeline env w pdf).1 = [] ∧
    ∃ e, (runPipeline env w pdf).2 = .error e := by
  have hmem' : name ∈ allVarNames := by
    simp only [requiredVarNames, List.mem_cons, List.not_mem_nil,
      or_false] at hmem
    rcases hmem with rfl | rfl | rfl | rfl | rfl <;> simp [allVarNames]
  obtain ⟨e, he⟩ := loadConfig_error_of_absent env name hmem' habs
  rw [runPipeline, he]
  exact ⟨rfl, e, rfl⟩

/-- C3, witness: the amended theorem at the empty environment and the
absent search-endpoint variable. -/
theorem C3_witness :
    ("AZURE_SEARCH_SERVICE_ENDPOINT" ∈ requiredVarNames ∧
      lookupEnv [] "AZURE_SEARCH_SERVICE_ENDPOINT" = none) ∧
    ((runPipeline [] wOk pdfOne).1 = [] ∧
      ∃ e, (runPipeline [] wOk pdfOne).2 = .error e) :=
  ⟨⟨by decide, rfl⟩,
   C3_absent_var_aborts [] wOk pdfOne "AZURE_SEARCH_SERVICE_ENDPOINT"
     (by decide) rfl⟩

/-- C4: each of the three query operations takes a free-text query and a
result-count bound and returns exactly the remote service's ranked result
list, unchanged — no local ranking, filtering, or fusion; the notebook
cells then display a leading segment (the first three) of that list, in
service order. -/
theorem C4_queries_pass_through (qw : QueryWorld) (q : String) (k : Nat) :
    similaritySearch qw q k = qw.search .similarity q k ∧
    hybridSearch qw q k = qw.search .hybrid q k ∧
    semanticHybridSearchWithScore qw q k = qw.search .semanticHybrid q k ∧
    (∃ rest, similarityCell qw ++ rest = qw.search .similarity nbQuery 50) ∧
    (∃ rest, hybridCell qw ++ rest = qw.search .hybrid nbQuery 50) ∧
    (∃ rest, semanticHybridCell qw ++ rest
        = qw.search .semanticHybrid nbQuery 50) :=
  ⟨rfl, rfl, rfl,
   ⟨(qw.search .similarity nbQuery 50).drop 3, List.take_append_drop 3 _⟩,
   ⟨(qw.search .hybrid nbQuery 50).drop 3, List.take_append_drop 3 _⟩,
   ⟨(qw.search .semanticHybrid nbQuery 50).drop 3, List.take_append_drop 3 _⟩⟩

/-- C5: whenever the ingestion loop over the three fixed PDF files (window
1000, overlap 0) completes successfully, the reported total chunk count
equals the sum over the files of the number of chunks split from that
file — the per-file counts of successfully written chunks.  The pipeline
is a pure function of the environment, the remote world, and the
extracted text, so the total is deterministic for fixed inputs. -/
theorem C5_total_chunks (w : World) (pdf : String → List Char) (n : Nat)
    (h : (ingestFiles w pdf benefitFiles).2 = .ok n) :
    n = (benefitFiles.map (fun f => (splitText 1000 0 (pdf f)).length)).sum := by
  have hsum := ingestFiles_ok_sum w pdf benefitFiles n h
  simpa [fileChunks] using hsum

/-- C5, witness: with a world in which every call succeeds and each file
extracting to a one-character text, the loop reports 3 chunks, the sum of
the three per-file counts. -/
theorem C5_witness :
    (ingestFiles wOk pdfOne benefitFiles).2 = .ok 3 ∧
    3 = (benefitFiles.map
          (fun f => (splitText 1000 0 (pdfOne f)).length)).sum :=
  ⟨rfl, C5_total_chunks wOk pdfOne 3 rfl⟩

/-- C6: when the search admin key variable is set to the empty string,
the loaded configuration carries no key, and the search client is
constructed with the ambient identity credential (as is the notebook's
`credential` variable). -/
theorem C6_empty_admin_key_ambient (env : Env) (cfg : Config)
    (hok : loadConfig env = .ok cfg)
    (hempty : lookupEnv env "AZURE_SEARCH_ADMIN_KEY" = some "") :
    (mkSearchClient cfg).credential = Credential.ambient ∧
    credentialOf cfg = Credential.ambient := by
  obtain ⟨v1, v2, v3, v4, v5, v6, v7, h1, h2, h3, h4, h5, h6, h7, hcfg⟩ :=
    loadConfig_ok_inv env cfg hok
  rw [h2] at hempty
  cases hempty
  subst hcfg
  constructor <;> rfl

/-- C6, witness: the theorem at the concrete environment whose admin key
is the empty string. -/
theorem C6_witness :
    (loadConfig envEmptyKeys = .ok cfgEmptyKeys ∧
      lookupEnv envEmptyKeys "AZURE_SEARCH_ADMIN_KEY" = some "") ∧
    ((mkSearchClient cfgEmptyKeys).credential = Credential.ambient ∧
      credentialOf cfgEmptyKeys = Credential.ambient) :=
  ⟨⟨rfl, by decide⟩,
   C6_empty_admin_key_ambient envEmptyKeys cfgEmptyKeys rfl (by decide)⟩

/-- C7: in every loaded configuration, exactly one embedding
authentication mechanism is active (`apiKey.isSome` is the negation of
`adTokenProvider`); an empty embedding API key variable yields a client
with no key and the Azure AD token provider attached, and a non-empty one
yields a client using that key with no token provider. -/
theorem C7_embedding_auth (env : Env) (cfg : Config)
    (hok : loadConfig env = .ok cfg) :
    ((mkEmbeddingsClient cfg).apiKey.isSome
        = !(mkEmbeddingsClient cfg).adTokenProvider) ∧
    (lookupEnv env "AZURE_OPENAI_KEY" = some "" →
      (mkEmbeddingsClient cfg).apiKey = none ∧
      (mkEmbeddingsClient cfg).adTokenProvider = true) ∧
    (∀ k, lookupEnv env "AZURE_OPENAI_KEY" = some k → k ≠ "" →
      (mkEmbeddingsClient cfg).apiKey = some k ∧
      (mkEmbeddingsClient cfg).adTokenProvider = false) := by
  obtain ⟨v1, v2, v3, v4, v5, v6, v7, h1, h2, h3, h4, h5, h6, h7, hcfg⟩ :=
    loadConfig_ok_inv env cfg hok
  subst hcfg
  refine ⟨?_, ?_, ?_⟩
  · by_cases hv : v5.length > 0 <;> simp [mkEmbeddingsClient, hv]
  · intro hemp
    rw [h5] at hemp
    cases hemp
    simp [mkEmbeddingsClient]
  · intro k hk hne
    rw [h5] at hk
    injection hk with hk
    subst hk
    have hpos : 0 < v5.length := length_pos_of_ne_empty v5 hne
    have hif : (if v5.length > 0 then some v5 else none) = some v5 :=
      if_pos hpos
    simp [mkEmbeddingsClient, hif]

/-- C7, witness: the theorem at the environment with an empty embedding
API key and at the environment with a non-empty one. -/
theorem C7_witness :
    (loadConfig envEmptyKeys = .ok cfgEmptyKeys ∧
      (mkEmbeddingsClient cfgEmptyKeys).apiKey = none ∧
      (mkEmbeddingsClient cfgEmptyKeys).adTokenProvider = true) ∧
    (loadConfig envWithKeys = .ok cfgWithKeys ∧
      (mkEmbeddingsClient cfgWithKeys).apiKey = some "okey" ∧
      (mkEmbeddingsClient cfgWithKeys).adTokenProvider = false) :=
  ⟨⟨rfl,
    (C7_embedding_auth envEmptyKeys cfgEmptyKeys rfl).2.1 (by decide)⟩,
   ⟨rfl,
    (C7_embedding_auth envWithKeys cfgWithKeys rfl).2.2 "okey"
      (by decide) (by decide)⟩⟩

/-- C8: any failing remote call propagates uncaught and terminates the
run, with no retry, recovery, or partial-failure handling.  Ingestion:
when a chunk's embedding call, or its index write after a successful
embedding, fails and every earlier chunk succeeded, the run ends in that
error, and the recorded remote calls are exactly those of the earlier
chunks (each issued once, no retry) followed by the failing chunk's
calls — nothing is issued for any later chunk.  Queries: when a query
cell's remote search call fails and every earlier cell succeeded, the
query phase ends in that same error, its trace being exactly one search
call per cell up to and including the failing one — no retry of the
failing call and no call for any later cell. -/
theorem C8_failure_aborts (w : World) (pre post : List Doc) (d : Doc)
    (qw : FallibleQueryWorld) (qpre qpost : List SearchMode) (m : SearchMode)
    (qe : String) (hpre : ∀ p ∈ pre, docOk w p) (hfail : docFails w d)
    (hqpre : ∀ m' ∈ qpre, ∃ rs, qw.trySearch m' nbQuery 50 = .ok rs)
    (hqfail : qw.trySearch m nbQuery 50 = .error qe) :
    ((∃ e, (addDocuments w (pre ++ d :: post)).2 = .error e) ∧
      (addDocuments w (pre ++ d :: post)).1
        = (pre.map (eventsFor w)).flatten ++ eventsFor w d) ∧
    ((runQueries qw (qpre ++ m :: qpost)).2 = .error qe ∧
      (runQueries qw (qpre ++ m :: qpost)).1
        = (qpre ++ [m]).map (fun m' => QueryEvent.searchCall m' nbQuery 50)) := by
  obtain ⟨htr, he⟩ := addDocuments_fail_decomp w d post pre hpre hfail
  obtain ⟨hqtr, hqres⟩ := runQueries_fail_decomp qw m qpost qe qpre hqpre hqfail
  exact ⟨⟨he, htr⟩, hqres, hqtr⟩

/-- C8, witness: ingestion with one successful chunk "a", a failing
chunk "b", and a pending chunk "c" that is never processed; queries with
the notebook's cell order (similarity, hybrid, semantic-hybrid) and the
hybrid call failing, so the semantic-hybrid cell never runs. -/
theorem C8_witness :
    ((∃ e, (addDocuments wFailB
        [⟨['a'], "f"⟩, ⟨['b'], "f"⟩, ⟨['c'], "f"⟩]).2 = .error e) ∧
      (addDocuments wFailB [⟨['a'], "f"⟩, ⟨['b'], "f"⟩, ⟨['c'], "f"⟩]).1
        = (([⟨['a'], "f"⟩] : List Doc).map (eventsFor wFailB)).flatten
            ++ eventsFor wFailB ⟨['b'], "f"⟩) ∧
    ((runQueries qwFailHybrid
        ([SearchMode.similarity]
          ++ SearchMode.hybrid :: [SearchMode.semanticHybrid])).2
        = .error "qboom" ∧
      (runQueries qwFailHybrid
        ([SearchMode.similarity]
          ++ SearchMode.hybrid :: [SearchMode.semanticHybrid])).1
        = (([SearchMode.similarity] ++ [SearchMode.hybrid]).map
            (fun m' => QueryEvent.searchCall m' nbQuery 50))) :=
  C8_failure_aborts wFailB [⟨['a'], "f"⟩] [⟨['c'], "f"⟩] ⟨['b'], "f"⟩
    qwFailHybrid [.similarity] [.semanticHybrid] .hybrid "qboom"
    (by
      intro p hp
      simp only [List.mem_singleton] at hp
      subst hp
      exact ⟨[1], "id0", rfl, rfl⟩)
    (Or.inl ⟨"boom", rfl⟩)
    (by
      intro m' hm
      simp only [List.mem_singleton] at hm
      subst hm
      exact ⟨[], rfl⟩)
    rfl

/-- C9: when every remote call succeeds, the trace of remote calls is the
per-chunk blocks in input order, and each chunk's block is its embedding
call immediately followed by its index-write call carrying the vector the
embedding returned — so the write endpoint is never called for a chunk
before that chunk's embedding call, and each chunk's write completes
before the next chunk is processed. -/
theorem C9_sequential_embed_write (w : World) (ds : List Doc)
    (hok : ∀ d ∈ ds, docOk w d) :
    (addDocuments w ds).1 = (ds.map (eventsFor w)).flatten ∧
    ∀ d ∈ ds, ∃ v, w.embed d.text = .ok v ∧
      eventsFor w d = [.embedCall d.text, .writeCall d.text v d.source] := by
  refine ⟨(addDocuments_ok_flatten w ds hok).1, ?_⟩
  intro d hd
  obtain ⟨v, id, hv, hw⟩ := hok d hd
  exact ⟨v, hv, by simp [eventsFor, hv]⟩

/-- C9, witness: the theorem for two chunks in the all-success world. -/
theorem C9_witness :
    (addDocuments wOk [⟨['a'], "f"⟩, ⟨['b'], "g"⟩]).1
      = (([⟨['a'], "f"⟩, ⟨['b'], "g"⟩] : List Doc).map (eventsFor wOk)).flatten ∧
    ∀ d ∈ ([⟨['a'], "f"⟩, ⟨['b'], "g"⟩] : List Doc), ∃ v,
      wOk.embed d.text = .ok v ∧
      eventsFor wOk d = [.embedCall d.text, .writeCall d.text v d.source] :=
  C9_sequential_embed_write wOk [⟨['a'], "f"⟩, ⟨['b'], "g"⟩]
    (fun _ _ => ⟨[0], "id0", rfl, rfl⟩)

/-- C10: the two "optional" key variables must still be set: if either is
absent from the environment, configuration loading fails with a
key-not-found error; a value set to the empty string is accepted and
normalised to the no-key (identity-credential fallback) case. -/
theorem C10_optional_vars_must_be_set (env : Env) :
    (lookupEnv env "AZURE_SEARCH_ADMIN_KEY" = none →
      ∃ e, loadConfig env = .error e) ∧
    (lookupEnv env "AZURE_OPENAI_KEY" = none →
      ∃ e, loadConfig env = .error e) ∧
    (∀ cfg, loadConfig env = .ok cfg →
      lookupEnv env "AZURE_SEARCH_ADMIN_KEY" = some "" →
      cfg.adminKey = none) ∧
    (∀ cfg, loadConfig env = .ok cfg →
      lookupEnv env "AZURE_OPENAI_KEY" = some "" →
      cfg.openaiKey = none) := by
  refine ⟨?_, ?_, ?_, ?_⟩
  · intro habs
    exact loadConfig_error_of_absent env "AZURE_SEARCH_ADMIN_KEY"
      (by simp [allVarNames]) habs
  · intro habs
    exact loadConfig_error_of_absent env "AZURE_OPENAI_KEY"
      (by simp [allVarNames]) habs
  · intro cfg hok hemp
    obtain ⟨v1, v2, v3, v4, v5, v6, v7, h1, h2, h3, h4, h5, h6, h7, hcfg⟩ :=
      loadConfig_ok_inv env cfg hok
    rw [h2] at hemp
    cases hemp
    subst hcfg
    rfl
  · intro cfg hok hemp
    obtain ⟨v1, v2, v3, v4, v5, v6, v7, h1, h2, h3, h4, h5, h6, h7, hcfg⟩ :=
      loadConfig_ok_inv env cfg hok
    rw [h5] at hemp
    cases hemp
    subst hcfg
    rfl

/-- C10, witness: unsetting either key variable makes loading fail, and
empty-string values load to the no-key fallback. -/
theorem C10_witness :
    (∃ e, loadConfig envNoAdmin = .error e) ∧
    (∃ e, loadConfig envNoOpenai = .error e) ∧
    cfgEmptyKeys.adminKey = none ∧
    cfgEmptyKeys.openaiKey = none :=
  ⟨(C10_optional_vars_must_be_set envNoAdmin).1 (by decide),
   (C10_optional_vars_must_be_set envNoOpenai).2.1 (by decide),
   (C10_optional_vars_must_be_set envEmptyKeys).2.2.1 cfgEmptyKeys
     rfl (by decide),
   (C10_optional_vars_must_be_set envEmptyKeys).2.2.2 cfgEmptyKeys
     rfl (by decide)⟩

end LangchainSample
